import Mathlib

/-!
A shallow embedding of `onlyfans_detector.py` (class `OnlyFansDetector`).

Strings are modelled as `List Char` (`S`). Python's `str.lower` is modelled
on the ASCII alphabet (`lowerChar`), which covers every character the
detector's patterns and URLs use. External collaborators (the `httpx`
client and the Playwright page/browser) are modelled as explicit "world"
records supplying, for each call the Python code makes, either the value
the collaborator returned or the exception message it raised
(`Except S _` / `Option S`). Every `try/except` of the source becomes a
`match` on such a value; collaborator teardown (`browser.close()`) is
modelled as infallible.
-/

/-- Python strings, modelled as lists of characters. -/
abbrev S : Type := List Char

/-- Coerce a Lean string literal into the model's string type. -/
def str (s : String) : S := s.toList

/-- Model of Python `str.lower` on one character, covering the ASCII
alphabet (the only letters appearing in the detector's patterns). -/
def lowerChar (c : Char) : Char :=
  match c with
  | 'A' => 'a' | 'B' => 'b' | 'C' => 'c' | 'D' => 'd' | 'E' => 'e'
  | 'F' => 'f' | 'G' => 'g' | 'H' => 'h' | 'I' => 'i' | 'J' => 'j'
  | 'K' => 'k' | 'L' => 'l' | 'M' => 'm' | 'N' => 'n' | 'O' => 'o'
  | 'P' => 'p' | 'Q' => 'q' | 'R' => 'r' | 'S' => 's' | 'T' => 't'
  | 'U' => 'u' | 'V' => 'v' | 'W' => 'w' | 'X' => 'x' | 'Y' => 'y'
  | 'Z' => 'z'
  | c => c

/-- Model of Python `str.lower`. -/
def lowerS (s : S) : S := s.map lowerChar

/-- Model of Python's substring test `pat in s`. -/
def containsSub (pat : S) (s : S) : Bool :=
  if List.isPrefixOf pat s then true
  else
    match s with
    | [] => false
    | _ :: t => containsSub pat t

/-- Model of `OF_REGEX.search(link)`: the pattern `onlyfans\.com` with `re.IGNORECASE`
is a literal case-insensitive substring search (line 19 of the source). -/
def ofRegexSearch (s : S) : Bool := containsSub (str "onlyfans.com") (lowerS s)

/-- The character class `[^\s<>"\']` of the URL regex (ASCII whitespace:
space, tab, newline, carriage return, vertical tab, form feed). -/
def isXChar (c : Char) : Bool :=
  !(c == ' ' || c == '\t' || c == '\n' || c == '\r' || c == '\x0b' ||
    c == '\x0c' || c == '<' || c == '>' || c.toNat == 34 || c.toNat == 39)

/-- Case-insensitive literal prefix test (`pat` given in lowercase). -/
def ciPrefix (pat : S) (s : S) : Bool := List.isPrefixOf pat (lowerS s)

/-- After the scheme (`k` consumed characters), the regex
`[^\s<>"\']*onlyfans\.com[^\s<>"\']*` matches greedily: the match extends
over the maximal run of class characters, and succeeds iff that run
contains `onlyfans.com`. Returns the total match length. -/
def ofMatchTail (s : S) (k : Nat) : Option Nat :=
  let run := (s.drop k).takeWhile isXChar
  if containsSub (str "onlyfans.com") (lowerS run) then some (k + run.length)
  else none

/-- Try to match `https?://[^\s<>"\']*onlyfans\.com[^\s<>"\']*`
(with `re.IGNORECASE`) at the start of `s`; returns the match length.
`https?` is greedy: the `s` branch is tried first. -/
def ofMatchAt (s : S) : Option Nat :=
  if ciPrefix (str "https://") s then ofMatchTail s 8
  else if ciPrefix (str "http://") s then ofMatchTail s 7
  else none

/-- Leftmost, non-overlapping scan of `re.findall` for the OnlyFans URL
regex. Fuel-driven; each step consumes at least one character (a match is
at least the scheme long), so fuel `s.length` reproduces the full scan. -/
def ofFindAux : Nat → S → List S
  | 0, _ => []
  | _ + 1, [] => []
  | fuel + 1, c :: t =>
    match ofMatchAt (c :: t) with
    | some n => (c :: t).take n :: ofFindAux fuel ((c :: t).drop n)
    | none => ofFindAux fuel t

/-- Model of `re.findall(r'https?://[^\s<>"\']*onlyfans\.com[^\s<>"\']*', s, re.IGNORECASE)`. -/
def ofFindall (s : S) : List S := ofFindAux s.length s

/-- Decimal rendering of a length, for the debug messages. -/
def natStr (n : Nat) : S := (Nat.repr n).toList

/-- The mutable result record `self.results` (source lines 26-32),
with the original JSON field spellings. -/
structure Results where
  has_onlyfans : Bool
  onlyfans_urls : List S
  detection_method : Option S
  errors : List S
  debug_info : List S
deriving DecidableEq, Repr

/-- The record as (re)initialised at the top of `detect_onlyfans`. -/
def initResults : Results :=
  { has_onlyfans := false, onlyfans_urls := [], detection_method := none,
    errors := [], debug_info := [] }

/-- Model of `self.results["errors"].append(msg)`. -/
def addError (r : Results) (msg : S) : Results :=
  { r with errors := r.errors ++ [msg] }

/-- The four assignments every successful strategy performs:
set the flag, the URLs, the method tag, and append a debug note. -/
def setSuccess (r : Results) (urls : List S) (method : S) (dbg : S) : Results :=
  { r with has_onlyfans := true, onlyfans_urls := urls,
           detection_method := some method,
           debug_info := r.debug_info ++ [dbg] }

/-- The filter of `_check_direct_links` line 75:
`'/files' not in url and '/public' not in url`. -/
def keepDirectUrl (url : S) : Bool :=
  !containsSub (str "/files") url && !containsSub (str "/public") url

/-- Model of `_check_direct_links` (source lines 62-86). The collaborator value is
the outcome of `client.get(bio_link)`: an exception message, or the pair
(status_code, text). -/
def check_direct_links (get : Except S (Nat × S)) (r : Results) : Bool × Results :=
  match get with
  | .error e => (false, addError r (str "Direct link check failed: " ++ e))
  | .ok resp =>
    if resp.1 == 200 then
      let content := lowerS resp.2
      let of_urls := ofFindall content
      if of_urls = [] then (false, r)
      else
        let valid_urls := of_urls.filter keepDirectUrl
        if valid_urls = [] then (false, r)
        else
          (true, setSuccess r valid_urls (str "direct_html_scan")
            (str "Found " ++ natStr valid_urls.length ++ str " direct OnlyFans links"))
    else (false, r)

/-! ## URL utilities (`urllib.parse` as used by this file) -/

/-- Split an absolute URL at the first `://`: returns (scheme, remainder).
Approximates `urlparse` for the absolute http(s) URLs this detector
handles; a string with no `://` has no scheme. -/
def splitScheme : S → Option (S × S)
  | [] => none
  | c :: t =>
    if List.isPrefixOf (str "://") (c :: t) then some ([], (c :: t).drop 3)
    else
      match splitScheme t with
      | some p => some (c :: p.1, p.2)
      | none => none

/-- A character ending the authority component of a URL. -/
def notAuthEnd (c : Char) : Bool := !(c == '/' || c == '?' || c == '#')

/-- Model of `urlparse(u).netloc`: the authority of an absolute URL, empty when the
input has no scheme. -/
def netlocOf (u : S) : S :=
  match splitScheme u with
  | none => []
  | some p => p.2.takeWhile notAuthEnd

/-- Model of `urljoin(base, url)` for the argument shapes this file produces: every
caller guards with `url.startswith('/')`, so only network-path (`//...`)
and absolute-path (`/...`) references arise; the base is an absolute URL
(a base without a scheme passes the reference through, as `urljoin` does). -/
def urljoin (base url : S) : S :=
  match splitScheme base with
  | none => url
  | some p =>
    if List.isPrefixOf (str "//") url then p.1 ++ str ":" ++ url
    else p.1 ++ str "://" ++ p.2.takeWhile notAuthEnd ++ url

/-! ## `_extract_all_links` (source lines 166-213) -/

/-- Collaborator values for one run of `_extract_all_links`: the anchor
`href`s, the values of the four `data-*` attribute queries (outer `.error`
models a failing locator/count call, the inner values a per-element
`get_attribute` outcome), and the serialized page markup. -/
structure ExtractWorld where
  anchors : Except S (List (Except S (Option S)))
  dataUrl : Except S (List (Except S (Option S)))
  dataHref : Except S (List (Except S (Option S)))
  dataLink : Except S (List (Except S (Option S)))
  dataTarget : Except S (List (Except S (Option S)))
  content : Except S S

/-- The anchor loop (lines 174-184): per-element failures are skipped; an
href starting with `/` is resolved against the base, one starting with
`http` is kept verbatim, anything else falls through unrecorded. -/
def anchorPass : List (Except S (Option S)) → S → List S
  | [], _ => []
  | .error _ :: rest, base => anchorPass rest base
  | .ok none :: rest, base => anchorPass rest base
  | .ok (some href) :: rest, base =>
    (if href.isEmpty then []
     else if List.isPrefixOf (str "/") href then [urljoin base href]
     else if List.isPrefixOf (str "http") href then [href]
     else []) ++ anchorPass rest base

/-- One `data-*` attribute loop (lines 188-200). -/
def dataPass : List (Except S (Option S)) → S → List S
  | [], _ => []
  | .error _ :: rest, base => dataPass rest base
  | .ok none :: rest, base => dataPass rest base
  | .ok (some v) :: rest, base =>
    (if !v.isEmpty && (containsSub (str "http") v || containsSub (str "/") v) then
       if List.isPrefixOf (str "http") v then [v]
       else if List.isPrefixOf (str "/") v then [urljoin base v]
       else []
     else []) ++ dataPass rest base

/-- Model of `_extract_all_links`: anchor pass (first 100), four data-attribute
passes (first 50 each), raw-markup regex pass (its failure is swallowed
with no note), then `list(set(links))`. A failure of a pass's locator jumps
to the outer handler, which records one note and returns the links
collected so far, deduplicated. Python's set iteration order is
unspecified; it is modelled as `List.dedup`. -/
def extract_all_links (w : ExtractWorld) (base_url : S) (r : Results) : List S × Results :=
  match w.anchors with
  | .error e => (List.dedup [], addError r (str "Link extraction failed: " ++ e))
  | .ok hrefs =>
    let links1 := anchorPass (hrefs.take 100) base_url
    match w.dataUrl with
    | .error e => (links1.dedup, addError r (str "Link extraction failed: " ++ e))
    | .ok vs1 =>
      let links2 := links1 ++ dataPass (vs1.take 50) base_url
      match w.dataHref with
      | .error e => (links2.dedup, addError r (str "Link extraction failed: " ++ e))
      | .ok vs2 =>
        let links3 := links2 ++ dataPass (vs2.take 50) base_url
        match w.dataLink with
        | .error e => (links3.dedup, addError r (str "Link extraction failed: " ++ e))
        | .ok vs3 =>
          let links4 := links3 ++ dataPass (vs3.take 50) base_url
          match w.dataTarget with
          | .error e => (links4.dedup, addError r (str "Link extraction failed: " ++ e))
          | .ok vs4 =>
            let links5 := links4 ++ dataPass (vs4.take 50) base_url
            let links6 :=
              match w.content with
              | .error _ => links5
              | .ok text => links5 ++ ofFindall text
            (links6.dedup, r)

/-! ## Platform click strategies (source lines 215-327) -/

/-- The targets of the domain dispatch table of `_try_interactive_clicks`. -/
inductive ClickKind
  | linkme
  | linktree
  | generic
deriving DecidableEq, Repr

/-- The dispatch of `_try_interactive_clicks` (lines 218-226): substring
tests on the lowercased authority of the bio link; a domain matching no
table entry dispatches nothing. -/
def click_dispatch (base_url : S) : Option ClickKind :=
  let domain := lowerS (netlocOf base_url)
  if containsSub (str "link.me") domain then some ClickKind.linkme
  else if containsSub (str "linktr.ee") domain then some ClickKind.linktree
  else if containsSub (str "beacons.ai") domain ||
          containsSub (str "getmysocial.com") domain then some ClickKind.generic
  else none

/-- Collaborator values for `_handle_linkme_clicks`: whether the OnlyFans
container was present (`.error` models a failing locator or click), and,
per Continue-button selector (four in the source), the outcome of that
attempt: `.error` a raised attempt, `none` a zero count, `some u` a click
that left the page at URL `u`. -/
structure LinkmeWorld where
  container : Except S Bool
  attempts : List (Except S (Option S))

/-- The Continue-selector loop of `_handle_linkme_clicks` (lines 251-266):
failed attempts continue; a click succeeds only when the resulting URL
matches `onlyfans.com` case-insensitively and does not contain `/files`. -/
def linkmeLoop : List (Except S (Option S)) → Results → Bool × Results
  | [], r => (false, r)
  | .error _ :: rest, r => linkmeLoop rest r
  | .ok none :: rest, r => linkmeLoop rest r
  | .ok (some current_url) :: rest, r =>
    if containsSub (str "onlyfans.com") (lowerS current_url) &&
       !containsSub (str "/files") current_url then
      (true, setSuccess r [current_url] (str "linkme_interactive")
        (str "Successfully clicked through Link.me OnlyFans flow"))
    else linkmeLoop rest r

/-- Model of `_handle_linkme_clicks` (lines 233-271). -/
def handle_linkme_clicks (w : LinkmeWorld) (r : Results) : Bool × Results :=
  match w.container with
  | .error e => (false, addError r (str "Link.me clicks failed: " ++ e))
  | .ok false => (false, r)
  | .ok true => linkmeLoop w.attempts r

/-- Collaborator values for `_handle_linktree_clicks`: the LinkButton
elements' hrefs (outer `.error` models a failing locator/count). -/
structure LinktreeWorld where
  buttons : Except S (List (Except S (Option S)))

/-- The LinkButton loop of `_handle_linktree_clicks` (lines 280-291). -/
def linktreeLoop : List (Except S (Option S)) → Results → Bool × Results
  | [], r => (false, r)
  | .error _ :: rest, r => linktreeLoop rest r
  | .ok none :: rest, r => linktreeLoop rest r
  | .ok (some href) :: rest, r =>
    if !href.isEmpty && containsSub (str "onlyfans.com") (lowerS href) &&
       !containsSub (str "/files") href then
      (true, setSuccess r [href] (str "linktree_direct")
        (str "Found OnlyFans link in Linktree"))
    else linktreeLoop rest r

/-- Model of `_handle_linktree_clicks` (lines 273-296), bounded to 10 elements. -/
def handle_linktree_clicks (w : LinktreeWorld) (r : Results) : Bool × Results :=
  match w.buttons with
  | .error e => (false, addError r (str "Linktree clicks failed: " ++ e))
  | .ok elems => linktreeLoop (elems.take 10) r

/-- Collaborator values for `_handle_generic_clicks`: one entry per
selector of `button_selectors` (six in the source); an outer `.error`
models a failing locator/count, which aborts the whole handler. -/
structure GenericWorld where
  selectors : List (Except S (List (Except S (Option S))))

/-- The per-selector element loop of `_handle_generic_clicks`
(lines 311-322). -/
def genericInner : List (Except S (Option S)) → Results → Bool × Results
  | [], r => (false, r)
  | .error _ :: rest, r => genericInner rest r
  | .ok none :: rest, r => genericInner rest r
  | .ok (some href) :: rest, r =>
    if !href.isEmpty && containsSub (str "onlyfans.com") (lowerS href) &&
       !containsSub (str "/files") href then
      (true, setSuccess r [href] (str "generic_platform")
        (str "Found OnlyFans link in generic platform"))
    else genericInner rest r

/-- The selector loop of `_handle_generic_clicks` (lines 307-322): a
failing count aborts with one error note; otherwise scan up to 20
elements, then move to the next selector. -/
def genericOuter : List (Except S (List (Except S (Option S)))) → Results → Bool × Results
  | [], r => (false, r)
  | .error e :: _, r => (false, addError r (str "Generic clicks failed: " ++ e))
  | .ok elems :: rest, r =>
    let p := genericInner (elems.take 20) r
    if p.1 then p else genericOuter rest p.2

/-- Model of `_handle_generic_clicks` (lines 298-327). -/
def handle_generic_clicks (w : GenericWorld) (r : Results) : Bool × Results :=
  genericOuter w.selectors r

/-- Collaborator values for the three click handlers. -/
structure ClickWorld where
  linkme : LinkmeWorld
  linktree : LinktreeWorld
  generic : GenericWorld

/-- Model of `_try_interactive_clicks` (lines 215-231): dispatch on the bio link's
domain and run the selected handler. In the model `urlparse` and the
handlers are total, so the handler's own catch absorbs every failure and
the outer `Interactive clicks failed` note is unreachable. -/
def try_interactive_clicks (cw : ClickWorld) (base_url : S) (r : Results) : Bool × Results :=
  match click_dispatch base_url with
  | some ClickKind.linkme => handle_linkme_clicks cw.linkme r
  | some ClickKind.linktree => handle_linktree_clicks cw.linktree r
  | some ClickKind.generic => handle_generic_clicks cw.generic r
  | none => (false, r)

/-! ## `_check_interactive_page` (source lines 88-164) -/

/-- The condition of the `handle_response` listener (lines 99-103) on one
observed response `(status, location header or '')`: a 3xx whose Location
matches `onlyfans.com` case-insensitively and does not contain `/files`
(note: no `/public` test here). -/
def captureResponse (p : Nat × S) : Bool :=
  decide (300 ≤ p.1) && decide (p.1 < 400) &&
  containsSub (str "onlyfans.com") (lowerS p.2) && !containsSub (str "/files") p.2

/-- The filter applied to extracted links (line 132): signature match and
both path exclusions. -/
def ofLinkKeep (link : S) : Bool :=
  ofRegexSearch link && !containsSub (str "/files") link &&
  !containsSub (str "/public") link

/-- Collaborator values for one run of `_check_interactive_page`:
a Playwright setup failure, a navigation failure, the response events seen
by the listener, and the worlds of the extractor and the click handlers.
The cookie-consent block (lines 113-126) swallows its exceptions and never
touches the result record, so it has no model counterpart; `browser.close()`
is modelled as infallible. -/
structure InteractiveWorld where
  setupError : Option S
  gotoError : Option S
  responses : List (Nat × S)
  extract : ExtractWorld
  click : ClickWorld

/-- Model of `_check_interactive_page`: extraction first, then the platform clicks,
then the passively captured redirects. -/
def check_interactive_page (w : InteractiveWorld) (bio_link : S) (r : Results) : Bool × Results :=
  match w.setupError with
  | some e => (false, addError r (str "Playwright setup failed: " ++ e))
  | none =>
    let onlyfans_redirects := (w.responses.filter captureResponse).map (fun p => p.2)
    match w.gotoError with
    | some e => (false, addError r (str "Interactive page check failed: " ++ e))
    | none =>
      let ex := extract_all_links w.extract bio_link r
      let of_links := ex.1.filter ofLinkKeep
      if of_links = [] then
        let ic := try_interactive_clicks w.click bio_link ex.2
        if ic.1 then (true, ic.2)
        else if onlyfans_redirects = [] then (false, ic.2)
        else
          (true, setSuccess ic.2 onlyfans_redirects (str "redirect_capture")
            (str "Captured " ++ natStr onlyfans_redirects.length ++ str " OnlyFans redirects"))
      else
        (true, setSuccess ex.2 of_links (str "interactive_link_extraction")
          (str "Found " ++ natStr of_links.length ++ str " OnlyFans links via interactive extraction"))

/-! ## `_follow_redirects` (source lines 369-392) -/

/-- The redirection status codes of line 377. -/
def isRedirectStatus (st : Nat) : Bool :=
  st == 301 || st == 302 || st == 303 || st == 307 || st == 308

/-- Lines 380-383: a Location starting with `/` is resolved against the
current URL, every other value is taken verbatim. -/
def resolveLocation (current location : S) : S :=
  if List.isPrefixOf (str "/") location then urljoin current location else location

/-- The hop loop of `_follow_redirects`. The HEAD collaborator is a
function of the hop index and the current URL returning an exception
message or `(status, Location header)`; a transport error, a non-redirect
status, an absent header or a falsy (empty) header value all break the
loop. -/
def followAux (head : Nat → S → Except S (Nat × Option S)) :
    Nat → Nat → S → List S → S × List S
  | _, 0, current, chain => (current, chain)
  | step, n + 1, current, chain =>
    match head step current with
    | .error _ => (current, chain)
    | .ok resp =>
      if isRedirectStatus resp.1 then
        match resp.2 with
        | some location =>
          if location.isEmpty then (current, chain)
          else
            followAux head (step + 1) n (resolveLocation current location)
              (chain ++ [resolveLocation current location])
        | none => (current, chain)
      else (current, chain)

/-- Model of `_follow_redirects(client, url, max_redirects)`: returns the final URL
and the visited chain, which starts as `[url]`. -/
def follow_redirects (head : Nat → S → Except S (Nat × Option S)) (url : S)
    (max_redirects : Nat) : S × List S :=
  followAux head 0 max_redirects url [url]

/-! ## `_check_redirect_chains` (source lines 329-367) -/

/-- A quote character, for the `href=["\']([^"\']+)["\']` pattern. -/
def isQuoteCh (c : Char) : Bool := c.toNat == 34 || c.toNat == 39

/-- Match `pat` + quote + non-empty quote-free run + quote at the head of
`s`; returns the captured run and the total match length. -/
def attrMatchAt (pat : S) (s : S) : Option (S × Nat) :=
  if List.isPrefixOf pat s then
    match s.drop pat.length with
    | [] => none
    | q :: rest =>
      if isQuoteCh q then
        let run := rest.takeWhile (fun c => !isQuoteCh c)
        if run.isEmpty then none
        else
          match rest.drop run.length with
          | [] => none
          | q2 :: _ => if isQuoteCh q2 then some (run, pat.length + 1 + run.length + 1) else none
      else none
  else none

/-- Leftmost, non-overlapping `re.findall` scan for an attribute pattern
(case-sensitive, as at lines 339-340). Fuel-driven as in `ofFindAux`. -/
def attrFindAux (pat : S) : Nat → S → List S
  | 0, _ => []
  | _ + 1, [] => []
  | fuel + 1, c :: t =>
    match attrMatchAt pat (c :: t) with
    | some m => m.1 :: attrFindAux pat fuel ((c :: t).drop m.2)
    | none => attrFindAux pat fuel t

/-- Model of `re.findall(r'<pat>=["\']([^"\']+)["\']', s)`. -/
def attrFindall (pat : S) (s : S) : List S := attrFindAux pat s.length s

/-- Collaborator values for `_check_redirect_chains`: the GET of the bio
link, and a HEAD oracle indexed by the candidate link being followed, the
hop index, and the current URL. -/
structure RedirectWorld where
  get : Except S (Nat × S)
  head : S → Nat → S → Except S (Nat × Option S)

/-- The candidate-link loop (lines 343-362): skip empty, fragment-only and
`mailto:` links, resolve root-relative ones, follow the redirect chain
with the default bound of 5, and succeed on the first terminal URL that
matches the signature and contains neither `/files` nor `/public`. The
body's inner catch is unreachable in the model since every step is total. -/
def redirectLoop (head : S → Nat → S → Except S (Nat × Option S)) (bio_link : S) :
    List S → Results → Bool × Results
  | [], r => (false, r)
  | link :: rest, r =>
    if link.isEmpty || List.isPrefixOf (str "#") link ||
       List.isPrefixOf (str "mailto:") link then
      redirectLoop head bio_link rest r
    else
      let resolved := if List.isPrefixOf (str "/") link then urljoin bio_link link else link
      let final_url := (follow_redirects (head resolved) resolved 5).1
      if ofRegexSearch final_url && !containsSub (str "/files") final_url &&
         !containsSub (str "/public") final_url then
        (true, setSuccess r [final_url] (str "redirect_chain")
          (str "Found OnlyFans via redirect: " ++ resolved ++ str " → " ++ final_url))
      else redirectLoop head bio_link rest r

/-- Model of `_check_redirect_chains`: on a 200 response, extract `href=` and
`data-url=` attribute values from the raw markup and probe the first 20. -/
def check_redirect_chains (w : RedirectWorld) (bio_link : S) (r : Results) : Bool × Results :=
  match w.get with
  | .error e => (false, addError r (str "Redirect chain check failed: " ++ e))
  | .ok resp =>
    if resp.1 == 200 then
      let all_links := attrFindall (str "href=") resp.2 ++ attrFindall (str "data-url=") resp.2
      redirectLoop w.head bio_link (all_links.take 20) r
    else (false, r)

/-! ## `detect_onlyfans` (source lines 34-60) -/

/-- All collaborator behaviour one call of `detect_onlyfans` can observe. -/
structure World where
  directGet : Except S (Nat × S)
  interactive : InteractiveWorld
  redirect : RedirectWorld

/-- Instrumentation: which of the three strategies executed, in order. -/
inductive StrategyTag
  | direct
  | interactive
  | redirectChain
deriving DecidableEq, Repr

/-- Model of `detect_onlyfans`: reset the record, then run the three strategies in
order, returning at the first success. The trace component records which
strategies executed. The strategies are total in the model (each catches
its collaborators' failures itself), so the outer `Detection failed`
handler of line 57 is unreachable. -/
def detect_onlyfans (w : World) (bio_link : S) : Results × List StrategyTag :=
  let d := check_direct_links w.directGet initResults
  if d.1 then (d.2, [StrategyTag.direct])
  else
    let i := check_interactive_page w.interactive bio_link d.2
    if i.1 then (i.2, [StrategyTag.direct, StrategyTag.interactive])
    else
      let rc := check_redirect_chains w.redirect bio_link i.2
      (rc.2, [StrategyTag.direct, StrategyTag.interactive, StrategyTag.redirectChain])

/-! ## Specification shapes shared by the strategy lemmas -/

/-- The three linked fields of the result record agree with `r`'s. -/
def FieldsEq (a b : Results) : Prop :=
  a.has_onlyfans = b.has_onlyfans ∧ a.onlyfans_urls = b.onlyfans_urls ∧
  a.detection_method = b.detection_method

/-- What a successful strategy leaves behind: flag set, a non-empty URL
list none of whose entries contains `/files`, and a method tag. -/
def SuccessShape (p : Bool × Results) : Prop :=
  p.2.has_onlyfans = true ∧ p.2.onlyfans_urls ≠ [] ∧
  p.2.detection_method.isSome = true ∧
  ∀ u ∈ p.2.onlyfans_urls, containsSub (str "/files") u = false

/-- Strategy contract: success establishes `SuccessShape`, failure leaves
the three linked fields as they were in `r`. -/
def StratSpec (r : Results) (p : Bool × Results) : Prop :=
  (p.1 = true → SuccessShape p) ∧ (p.1 = false → FieldsEq p.2 r)

/-! ## Concrete collaborator worlds used by witnesses and counterexamples -/

/-- An extractor world in which every query returns nothing. -/
def quietExtract : ExtractWorld :=
  ⟨Except.ok [], Except.ok [], Except.ok [], Except.ok [], Except.ok [], Except.ok []⟩

/-- A click world in which no interactive element is present. -/
def quietClick : ClickWorld := ⟨⟨Except.ok false, []⟩, ⟨Except.ok []⟩, ⟨[]⟩⟩

/-- An interactive session that renders an empty page and sees no 3xx. -/
def quietInteractive : InteractiveWorld := ⟨none, none, [], quietExtract, quietClick⟩

/-- A redirect-probe world whose GET fails. -/
def quietRedirect : RedirectWorld := ⟨Except.error [], fun _ _ _ => Except.error []⟩

/-- World for the C1 counterexample: the static scan sees nothing, the
session passively observes one 302 whose Location is an `onlyfans.com`
URL on the excluded `/public` path. -/
def c1World : World :=
  { directGet := Except.ok (200, str ""),
    interactive :=
      { setupError := none, gotoError := none,
        responses := [(302, str "https://onlyfans.com/public/x")],
        extract := quietExtract, click := quietClick },
    redirect := quietRedirect }

/-- World for the C1 witness: the direct scan finds a profile URL. -/
def c1WitWorld : World :=
  { directGet := Except.ok (200, str "https://onlyfans.com/model1"),
    interactive := quietInteractive, redirect := quietRedirect }

/-- World for the C2 witness: the direct scan succeeds immediately. -/
def c2World : World :=
  { directGet := Except.ok (200, str "<a>https://onlyfans.com/m2</a>"),
    interactive := quietInteractive, redirect := quietRedirect }

/-- HEAD oracle for the C6 counterexample: the first hop 302-redirects to
the relative (non-slash) Location `next.html`, afterwards the transport
fails. -/
def c6Head : Nat → S → Except S (Nat × Option S) :=
  fun step _ => if step == 0 then Except.ok (302, some (str "next.html")) else Except.error []

/-- Extractor world for the C9 counterexample: one in-bound anchor whose
href is the relative reference `about.html`. -/
def c9World : ExtractWorld :=
  ⟨Except.ok [Except.ok (some (str "about.html"))],
   Except.ok [], Except.ok [], Except.ok [], Except.ok [], Except.ok []⟩

/-- HEAD oracle for the C6 witness: one 301 hop to the root-relative
Location `/next`, then the transport fails. -/
def c6WitHead : Nat → S → Except S (Nat × Option S) :=
  fun step _ => if step == 0 then Except.ok (301, some (str "/next")) else Except.error []

/-- Extractor world for the C9 witness: one anchor with the root-relative
href `/of`. -/
def c9WitWorld : ExtractWorld :=
  ⟨Except.ok [Except.ok (some (str "/of"))],
   Except.ok [], Except.ok [], Except.ok [], Except.ok [], Except.ok []⟩

/-! ## Strategy contract lemmas -/

theorem keepDirectUrl_files (u : S) (h : keepDirectUrl u = true) :
    containsSub (str "/files") u = false := by
  unfold keepDirectUrl at h
  simp only [Bool.and_eq_true, Bool.not_eq_true'] at h
  exact h.1

theorem fieldsEq_addError (r : Results) (m : S) : FieldsEq (addError r m) r := by
  simp [FieldsEq, addError]

theorem fieldsEq_refl (r : Results) : FieldsEq r r := ⟨rfl, rfl, rfl⟩

theorem fieldsEq_trans {a b c : Results} (h1 : FieldsEq a b) (h2 : FieldsEq b c) :
    FieldsEq a c :=
  ⟨h1.1.trans h2.1, h1.2.1.trans h2.2.1, h1.2.2.trans h2.2.2⟩

theorem stratSpec_chain {r r' : Results} {p : Bool × Results}
    (hf : FieldsEq r' r) (h : StratSpec r' p) : StratSpec r p :=
  ⟨h.1, fun hb => fieldsEq_trans (h.2 hb) hf⟩

theorem check_direct_links_spec (g : Except S (Nat × S)) (r : Results) :
    StratSpec r (check_direct_links g r) := by
  unfold check_direct_links
  match g with
  | .error e => exact ⟨by simp, fun _ => fieldsEq_addError r _⟩
  | .ok resp =>
    dsimp only
    split
    · split
      · exact ⟨by simp, fun _ => fieldsEq_refl r⟩
      · split
        · exact ⟨by simp, fun _ => fieldsEq_refl r⟩
        · refine ⟨fun _ => ⟨rfl, by assumption, rfl, ?_⟩, by simp⟩
          intro u hu
          exact keepDirectUrl_files u (List.of_mem_filter hu)
    · exact ⟨by simp, fun _ => fieldsEq_refl r⟩

theorem linkmeLoop_spec (l : List (Except S (Option S))) (r : Results) :
    StratSpec r (linkmeLoop l r) := by
  induction l with
  | nil => exact ⟨by simp [linkmeLoop], fun _ => fieldsEq_refl r⟩
  | cons a rest ih =>
    match a with
    | .error e => simpa [linkmeLoop] using ih
    | .ok none => simpa [linkmeLoop] using ih
    | .ok (some u) =>
      unfold linkmeLoop
      split
      · next hcond =>
        simp only [Bool.and_eq_true, Bool.not_eq_true'] at hcond
        refine ⟨fun _ => ⟨rfl, by simp [setSuccess], rfl, ?_⟩, by simp⟩
        intro x hx
        simp only [setSuccess, List.mem_singleton] at hx
        subst hx
        exact hcond.2
      · exact ih

theorem handle_linkme_clicks_spec (w : LinkmeWorld) (r : Results) :
    StratSpec r (handle_linkme_clicks w r) := by
  unfold handle_linkme_clicks
  match w.container with
  | .error e => exact ⟨by simp, fun _ => fieldsEq_addError r _⟩
  | .ok false => exact ⟨by simp, fun _ => fieldsEq_refl r⟩
  | .ok true => exact linkmeLoop_spec w.attempts r

theorem linktreeLoop_spec (l : List (Except S (Option S))) (r : Results) :
    StratSpec r (linktreeLoop l r) := by
  induction l with
  | nil => exact ⟨by simp [linktreeLoop], fun _ => fieldsEq_refl r⟩
  | cons a rest ih =>
    match a with
    | .error e => simpa [linktreeLoop] using ih
    | .ok none => simpa [linktreeLoop] using ih
    | .ok (some u) =>
      unfold linktreeLoop
      split
      · next hcond =>
        simp only [Bool.and_eq_true, Bool.not_eq_true'] at hcond
        refine ⟨fun _ => ⟨rfl, by simp [setSuccess], rfl, ?_⟩, by simp⟩
        intro x hx
        simp only [setSuccess, List.mem_singleton] at hx
        subst hx
        exact hcond.2
      · exact ih

theorem handle_linktree_clicks_spec (w : LinktreeWorld) (r : Results) :
    StratSpec r (handle_linktree_clicks w r) := by
  unfold handle_linktree_clicks
  match w.buttons with
  | .error e => exact ⟨by simp, fun _ => fieldsEq_addError r _⟩
  | .ok elems => exact linktreeLoop_spec (elems.take 10) r

theorem genericInner_spec (l : List (Except S (Option S))) (r : Results) :
    StratSpec r (genericInner l r) := by
  induction l with
  | nil => exact ⟨by simp [genericInner], fun _ => fieldsEq_refl r⟩
  | cons a rest ih =>
    match a with
    | .error e => simpa [genericInner] using ih
    | .ok none => simpa [genericInner] using ih
    | .ok (some u) =>
      unfold genericInner
      split
      · next hcond =>
        simp only [Bool.and_eq_true, Bool.not_eq_true'] at hcond
        refine ⟨fun _ => ⟨rfl, by simp [setSuccess], rfl, ?_⟩, by simp⟩
        intro x hx
        simp only [setSuccess, List.mem_singleton] at hx
        subst hx
        exact hcond.2
      · exact ih

theorem genericOuter_spec (l : List (Except S (List (Except S (Option S))))) (r : Results) :
    StratSpec r (genericOuter l r) := by
  induction l generalizing r with
  | nil => exact ⟨by simp [genericOuter], fun _ => fieldsEq_refl r⟩
  | cons s rest ih =>
    match s with
    | .error e =>
      exact ⟨by simp [genericOuter], fun _ => fieldsEq_addError r _⟩
    | .ok elems =>
      have hin := genericInner_spec (elems.take 20) r
      show StratSpec r
        (if (genericInner (List.take 20 elems) r).1 = true then genericInner (List.take 20 elems) r
         else genericOuter rest (genericInner (List.take 20 elems) r).2)
      split
      · next hb => exact ⟨fun _ => hin.1 hb, fun hf => by rw [hf] at hb; exact absurd hb (by simp)⟩
      · next hb =>
        have hkeep : FieldsEq (genericInner (List.take 20 elems) r).2 r :=
          hin.2 (by revert hb; cases (genericInner (List.take 20 elems) r).1 <;> simp)
        exact stratSpec_chain hkeep (ih _)

theorem handle_generic_clicks_spec (w : GenericWorld) (r : Results) :
    StratSpec r (handle_generic_clicks w r) :=
  genericOuter_spec w.selectors r

theorem try_interactive_clicks_spec (cw : ClickWorld) (base : S) (r : Results) :
    StratSpec r (try_interactive_clicks cw base r) := by
  unfold try_interactive_clicks
  match click_dispatch base with
  | some ClickKind.linkme => exact handle_linkme_clicks_spec cw.linkme r
  | some ClickKind.linktree => exact handle_linktree_clicks_spec cw.linktree r
  | some ClickKind.generic => exact handle_generic_clicks_spec cw.generic r
  | none => exact ⟨by simp, fun _ => fieldsEq_refl r⟩

theorem extract_fieldsEq (w : ExtractWorld) (base : S) (r : Results) :
    FieldsEq (extract_all_links w base r).2 r := by
  obtain ⟨a, du, dh, dl, dt, co⟩ := w
  unfold extract_all_links
  cases a <;> cases du <;> cases dh <;> cases dl <;> cases dt <;> cases co <;>
    first
      | exact fieldsEq_addError r _
      | exact fieldsEq_refl r

theorem captureResponse_files (p : Nat × S) (h : captureResponse p = true) :
    containsSub (str "/files") p.2 = false := by
  unfold captureResponse at h
  simp only [Bool.and_eq_true, Bool.not_eq_true'] at h
  exact h.2

theorem ofLinkKeep_files (u : S) (h : ofLinkKeep u = true) :
    containsSub (str "/files") u = false := by
  unfold ofLinkKeep at h
  simp only [Bool.and_eq_true, Bool.not_eq_true'] at h
  exact h.1.2

theorem check_interactive_page_spec (w : InteractiveWorld) (bio : S) (r : Results) :
    StratSpec r (check_interactive_page w bio r) := by
  unfold check_interactive_page
  match w.setupError with
  | some e => exact ⟨by simp, fun _ => fieldsEq_addError r _⟩
  | none =>
    dsimp only
    match w.gotoError with
    | some e => exact ⟨by simp, fun _ => fieldsEq_addError r _⟩
    | none =>
      dsimp only
      have hex := extract_fieldsEq w.extract bio r
      split
      · next hofl =>
        have hic := try_interactive_clicks_spec w.click bio (extract_all_links w.extract bio r).2
        split
        · next hb => exact ⟨fun _ => hic.1 hb, by simp⟩
        · next hb =>
          have hkeep : FieldsEq ((try_interactive_clicks w.click bio (extract_all_links w.extract bio r).2).2) r :=
            fieldsEq_trans (hic.2 (by revert hb; cases (try_interactive_clicks w.click bio (extract_all_links w.extract bio r).2).1 <;> simp)) hex
          split
          · next hred => exact ⟨by simp, fun _ => hkeep⟩
          · next hred =>
            refine ⟨fun _ => ⟨rfl, by simpa [setSuccess] using hred, rfl, ?_⟩, by simp⟩
            intro u hu
            simp only [setSuccess] at hu
            rcases List.mem_map.mp hu with ⟨p, hp, rfl⟩
            exact captureResponse_files p (List.of_mem_filter hp)
      · next hofl =>
        refine ⟨fun _ => ⟨rfl, by simpa [setSuccess] using hofl, rfl, ?_⟩, by simp⟩
        intro u hu
        simp only [setSuccess] at hu
        exact ofLinkKeep_files u (List.of_mem_filter hu)

theorem bool_not_true {b : Bool} (h : ¬ b = true) : b = false := by
  cases b <;> simp_all

theorem redirectLoop_spec (head : S → Nat → S → Except S (Nat × Option S)) (bio : S)
    (l : List S) (r : Results) : StratSpec r (redirectLoop head bio l r) := by
  induction l with
  | nil => exact ⟨by simp [redirectLoop], fun _ => fieldsEq_refl r⟩
  | cons link rest ih =>
    unfold redirectLoop
    split
    · exact ih
    · split <;> (dsimp only; split)
      any_goals exact ih
      all_goals
        rename_i hcond
        simp only [Bool.and_eq_true, Bool.not_eq_true'] at hcond
        refine ⟨fun _ => ⟨rfl, by simp [setSuccess], rfl, ?_⟩, by simp⟩
        intro x hx
        simp only [setSuccess, List.mem_singleton] at hx
        subst hx
        exact hcond.1.2

theorem check_redirect_chains_spec (w : RedirectWorld) (bio : S) (r : Results) :
    StratSpec r (check_redirect_chains w bio r) := by
  unfold check_redirect_chains
  match w.get with
  | .error e => exact ⟨by simp, fun _ => fieldsEq_addError r _⟩
  | .ok resp =>
    dsimp only
    split
    · exact redirectLoop_spec w.head bio _ r
    · exact ⟨by simp, fun _ => fieldsEq_refl r⟩

/-- Every run of the pipeline either ends in the success shape or leaves
the three linked fields at their initial values. -/
theorem detect_cases (w : World) (bio : S) :
    SuccessShape (true, (detect_onlyfans w bio).1) ∨
    FieldsEq (detect_onlyfans w bio).1 initResults := by
  unfold detect_onlyfans
  have hd := check_direct_links_spec w.directGet initResults
  show SuccessShape (true,
      (if (check_direct_links w.directGet initResults).1 = true then
        ((check_direct_links w.directGet initResults).2, [StrategyTag.direct])
      else
        if (check_interactive_page w.interactive bio (check_direct_links w.directGet initResults).2).1 = true then
          ((check_interactive_page w.interactive bio (check_direct_links w.directGet initResults).2).2,
            [StrategyTag.direct, StrategyTag.interactive])
        else
          ((check_redirect_chains w.redirect bio
              (check_interactive_page w.interactive bio (check_direct_links w.directGet initResults).2).2).2,
            [StrategyTag.direct, StrategyTag.interactive, StrategyTag.redirectChain])).1) ∨
    FieldsEq (if (check_direct_links w.directGet initResults).1 = true then
        ((check_direct_links w.directGet initResults).2, [StrategyTag.direct])
      else
        if (check_interactive_page w.interactive bio (check_direct_links w.directGet initResults).2).1 = true then
          ((check_interactive_page w.interactive bio (check_direct_links w.directGet initResults).2).2,
            [StrategyTag.direct, StrategyTag.interactive])
        else
          ((check_redirect_chains w.redirect bio
              (check_interactive_page w.interactive bio (check_direct_links w.directGet initResults).2).2).2,
            [StrategyTag.direct, StrategyTag.interactive, StrategyTag.redirectChain])).1 initResults
  split
  · next h1 => exact Or.inl (hd.1 h1)
  · next h1 =>
    have hk1 : FieldsEq (check_direct_links w.directGet initResults).2 initResults :=
      hd.2 (bool_not_true h1)
    have hi := check_interactive_page_spec w.interactive bio (check_direct_links w.directGet initResults).2
    split
    · next h2 => exact Or.inl (hi.1 h2)
    · next h2 =>
      have hk2 : FieldsEq (check_interactive_page w.interactive bio (check_direct_links w.directGet initResults).2).2 initResults :=
        fieldsEq_trans (hi.2 (bool_not_true h2)) hk1
      have hr := check_redirect_chains_spec w.redirect bio
        (check_interactive_page w.interactive bio (check_direct_links w.directGet initResults).2).2
      cases hb : (check_redirect_chains w.redirect bio
          (check_interactive_page w.interactive bio (check_direct_links w.directGet initResults).2).2).1 with
      | false => exact Or.inr (fieldsEq_trans (hr.2 hb) hk2)
      | true => exact Or.inl (hr.1 hb)


/-! ## Redirect-follower lemmas -/

theorem head?_append_left {α : Type} (l l2 : List α) (h : l ≠ []) :
    (l ++ l2).head? = l.head? := by
  cases l <;> simp_all

theorem followAux_spec (head : Nat → S → Except S (Nat × Option S)) (n : Nat) :
    ∀ (step : Nat) (current : S) (chain : List S), chain.getLast? = some current →
      (followAux head step n current chain).2.length ≤ chain.length + n ∧
      (followAux head step n current chain).2.head? = chain.head? ∧
      (followAux head step n current chain).2.getLast? =
        some (followAux head step n current chain).1 := by
  induction n with
  | zero =>
    intro step current chain hlast
    exact ⟨by simp [followAux], rfl, by simpa [followAux] using hlast⟩
  | succ k ih =>
    intro step current chain hlast
    have hne : chain ≠ [] := by
      intro hc; rw [hc] at hlast; exact Option.noConfusion hlast
    unfold followAux
    cases h : head step current with
    | error e => exact ⟨by simp, rfl, hlast⟩
    | ok resp =>
      dsimp only
      split
      · cases h2 : resp.2 with
        | some location =>
          dsimp only
          split
          · exact ⟨by simp, rfl, hlast⟩
          · have hih := ih (step + 1) (resolveLocation current location)
              (chain ++ [resolveLocation current location]) (List.getLast?_concat _)
            refine ⟨?_, ?_, hih.2.2⟩
            · calc _ ≤ (chain ++ [resolveLocation current location]).length + k := hih.1
                _ = chain.length + (k + 1) := by simp; omega
            · rw [hih.2.1, head?_append_left _ _ hne]
        | none => exact ⟨by simp, rfl, hlast⟩
      · exact ⟨by simp, rfl, hlast⟩

theorem followAux_chain_extends (head : Nat → S → Except S (Nat × Option S)) (n : Nat) :
    ∀ (step : Nat) (current : S) (chain : List S),
      ∃ t, (followAux head step n current chain).2 = chain ++ t := by
  induction n with
  | zero => intro step current chain; exact ⟨[], by simp [followAux]⟩
  | succ k ih =>
    intro step current chain
    unfold followAux
    cases h : head step current with
    | error e => exact ⟨[], by simp⟩
    | ok resp =>
      dsimp only
      split
      · cases h2 : resp.2 with
        | some location =>
          dsimp only
          split
          · exact ⟨[], by simp⟩
          · obtain ⟨t, ht⟩ := ih (step + 1) (resolveLocation current location)
              (chain ++ [resolveLocation current location])
            exact ⟨resolveLocation current location :: t, by rw [ht, List.append_assoc]; rfl⟩
        | none => exact ⟨[], by simp⟩
      · exact ⟨[], by simp⟩

/-! ## Lowercase and character-provenance lemmas for the URL scan -/

theorem lowerChar_lower_mem :
    ∀ d ∈ (['a', 'b', 'c', 'd', 'e', 'f', 'g', 'h', 'i', 'j', 'k', 'l', 'm', 'n',
            'o', 'p', 'q', 'r', 's', 't', 'u', 'v', 'w', 'x', 'y', 'z'] : List Char),
      lowerChar d = d := by decide

theorem lowerChar_cases (c : Char) :
    lowerChar c = c ∨
    lowerChar c ∈ (['a', 'b', 'c', 'd', 'e', 'f', 'g', 'h', 'i', 'j', 'k', 'l', 'm', 'n',
                    'o', 'p', 'q', 'r', 's', 't', 'u', 'v', 'w', 'x', 'y', 'z'] : List Char) := by
  unfold lowerChar
  split <;> first | (left; rfl) | (right; decide)

theorem lowerChar_idem (c : Char) : lowerChar (lowerChar c) = lowerChar c := by
  rcases lowerChar_cases c with h | h
  · rw [h]; exact h
  · exact lowerChar_lower_mem _ h

theorem mem_of_mem_ofFindAux (fuel : Nat) :
    ∀ (s m : S), m ∈ ofFindAux fuel s → ∀ c ∈ m, c ∈ s := by
  induction fuel with
  | zero => intro s m hm; simp [ofFindAux] at hm
  | succ k ih =>
    intro s m hm c hc
    match s with
    | [] => simp [ofFindAux] at hm
    | c0 :: t =>
      unfold ofFindAux at hm
      cases h : ofMatchAt (c0 :: t) with
      | some n =>
        rw [h] at hm
        rcases List.mem_cons.mp hm with rfl | hm2
        · exact List.take_subset n (c0 :: t) hc
        · exact List.drop_subset n (c0 :: t) (ih _ _ hm2 c hc)
      | none =>
        rw [h] at hm
        exact List.mem_cons_of_mem c0 (ih t m hm c hc)

theorem lowerS_eq_self_of_mem (s : S) :
    ∀ (u : S), (∀ c ∈ u, c ∈ lowerS s) → lowerS u = u := by
  intro u
  induction u with
  | nil => intro _; rfl
  | cons c t ih =>
    intro hu
    rcases List.mem_map.mp (hu c (by simp)) with ⟨c0, _, rfl⟩
    have ht : lowerS t = t := ih fun x hx => hu x (List.mem_cons_of_mem _ hx)
    show lowerChar (lowerChar c0) :: lowerS t = lowerChar c0 :: t
    rw [lowerChar_idem, ht]

/-! ## Link-extractor lemmas -/

theorem mem_anchorPass_of_slash (base h : S) (hslash : List.isPrefixOf (str "/") h = true) :
    ∀ (l : List (Except S (Option S))), Except.ok (some h) ∈ l →
      urljoin base h ∈ anchorPass l base := by
  have hne : h.isEmpty = false := by
    cases h
    · simp [str, List.isPrefixOf] at hslash
    · rfl
  intro l hmem
  induction l with
  | nil => simp at hmem
  | cons a rest ih =>
    rcases List.mem_cons.mp hmem with rfl | hmem2
    · show urljoin base h ∈
        (if h.isEmpty = true then []
         else if List.isPrefixOf (str "/") h = true then [urljoin base h]
         else if List.isPrefixOf (str "http") h = true then [h] else []) ++
          anchorPass rest base
      rw [hne, hslash]
      simp
    · have hr := ih hmem2
      match a with
      | .error e => simpa [anchorPass] using hr
      | .ok none => simpa [anchorPass] using hr
      | .ok (some v) => exact List.mem_append_right _ hr

theorem mem_extract_of_mem_anchor (w : ExtractWorld) (base : S) (r : Results) (x : S)
    (hrefs : List (Except S (Option S))) (hw : w.anchors = Except.ok hrefs)
    (hx : x ∈ anchorPass (hrefs.take 100) base) :
    x ∈ (extract_all_links w base r).1 := by
  obtain ⟨a, du, dh, dl, dt, co⟩ := w
  simp only at hw
  subst hw
  unfold extract_all_links
  cases du <;> cases dh <;> cases dl <;> cases dt <;> cases co <;>
    simp [List.mem_dedup, hx]

theorem extract_all_links_nodup (w : ExtractWorld) (base : S) (r : Results) :
    ((extract_all_links w base r).1).Nodup := by
  obtain ⟨a, du, dh, dl, dt, co⟩ := w
  unfold extract_all_links
  cases a <;> cases du <;> cases dh <;> cases dl <;> cases dt <;> cases co <;>
    exact List.nodup_dedup _

/-! ## Claim theorems -/

/-- C1 (counterexample). The passive redirect-capture listener filters only
`/files` (source line 102), so a URL on the excluded `/public` path is
reported as a positive match: on `c1World` the pipeline returns the
`/public` URL in `onlyfans_urls` with method `redirect_capture`, refuting
the claim that no strategy ever places a `/public` URL in `target_urls`. -/
theorem redirect_capture_public_url_reported :
    (detect_onlyfans c1World (str "https://example.com/u")).1.onlyfans_urls
      = [str "https://onlyfans.com/public/x"] ∧
    (detect_onlyfans c1World (str "https://example.com/u")).1.has_onlyfans = true ∧
    (detect_onlyfans c1World (str "https://example.com/u")).1.detection_method
      = some (str "redirect_capture") ∧
    containsSub (str "/public") (str "https://onlyfans.com/public/x") = true := by
  decide

/-- C1 (amended). The `/files` exclusion is applied at the point of
insertion by every strategy: every URL the pipeline ever places in
`onlyfans_urls` is free of the literal substring `/files`. (The `/public`
exclusion is applied only by the direct scan, the interactive link
extraction, and the redirect-chain probe — not by the redirect-capture
listener or the platform click handlers.) -/
theorem detect_urls_files_filtered (w : World) (bio u : S)
    (hu : u ∈ (detect_onlyfans w bio).1.onlyfans_urls) :
    containsSub (str "/files") u = false := by
  rcases detect_cases w bio with h | h
  · exact h.2.2.2 u hu
  · rw [h.2.1] at hu
    simp [initResults] at hu

/-- C1 (witness for the amended theorem) at a concrete run in which the
direct scan stores one URL. -/
theorem detect_urls_files_filtered_witness :
    str "https://onlyfans.com/model1"
        ∈ (detect_onlyfans c1WitWorld (str "https://linktr.ee/u")).1.onlyfans_urls ∧
    containsSub (str "/files") (str "https://onlyfans.com/model1") = false :=
  ⟨by decide, detect_urls_files_filtered c1WitWorld (str "https://linktr.ee/u") _ (by decide)⟩

/-- C2. Strategy short-circuit: when the direct-scan strategy returns
success, the executed-strategy trace of `detect_onlyfans` is exactly the
direct scan — interactive analysis and redirect probing never execute. -/
theorem detect_short_circuit_direct (w : World) (bio : S)
    (h : (check_direct_links w.directGet initResults).1 = true) :
    (detect_onlyfans w bio).2 = [StrategyTag.direct] ∧
    StrategyTag.interactive ∉ (detect_onlyfans w bio).2 ∧
    StrategyTag.redirectChain ∉ (detect_onlyfans w bio).2 := by
  simp [detect_onlyfans, h]

/-- C2 (witness): a concrete world whose page markup contains the target
URL verbatim, so the direct scan succeeds and the trace is one entry. -/
theorem detect_short_circuit_direct_witness :
    (check_direct_links c2World.directGet initResults).1 = true ∧
    (detect_onlyfans c2World (str "https://link.me/u")).2 = [StrategyTag.direct] :=
  ⟨by decide, (detect_short_circuit_direct c2World (str "https://link.me/u") (by decide)).1⟩

/-- C3. For every collaborator behaviour and input, the returned record
satisfies: `has_onlyfans` is true iff `onlyfans_urls` is non-empty iff
`detection_method` is set. -/
theorem detect_result_invariant (w : World) (bio : S) :
    ((detect_onlyfans w bio).1.has_onlyfans = true ↔
      (detect_onlyfans w bio).1.onlyfans_urls ≠ []) ∧
    ((detect_onlyfans w bio).1.has_onlyfans = true ↔
      (detect_onlyfans w bio).1.detection_method.isSome = true) := by
  rcases detect_cases w bio with h | h
  · obtain ⟨h1, h2, h3, -⟩ := h
    exact ⟨⟨fun _ => h2, fun _ => h1⟩, ⟨fun _ => h3, fun _ => h1⟩⟩
  · obtain ⟨h1, h2, h3⟩ := h
    rw [h1, h2, h3]
    simp [initResults]

/-- C4. When each strategy's collaborator raises (network error, setup
failure), `detect_onlyfans` still returns a well-formed record — no
exception escapes in the model, `has_onlyfans` is false, `onlyfans_urls`
is empty, and each failure is recorded as one entry of `errors`, in
strategy order. -/
theorem detect_all_failures_recorded (e1 e2 e3 bio : S) (g : Option S)
    (resp : List (Nat × S)) (ex : ExtractWorld) (cl : ClickWorld)
    (hd : S → Nat → S → Except S (Nat × Option S)) :
    (detect_onlyfans ⟨Except.error e1, ⟨some e2, g, resp, ex, cl⟩, ⟨Except.error e3, hd⟩⟩ bio).1.has_onlyfans = false ∧
    (detect_onlyfans ⟨Except.error e1, ⟨some e2, g, resp, ex, cl⟩, ⟨Except.error e3, hd⟩⟩ bio).1.onlyfans_urls = [] ∧
    (detect_onlyfans ⟨Except.error e1, ⟨some e2, g, resp, ex, cl⟩, ⟨Except.error e3, hd⟩⟩ bio).1.errors =
      [str "Direct link check failed: " ++ e1,
       str "Playwright setup failed: " ++ e2,
       str "Redirect chain check failed: " ++ e3] := by
  simp [detect_onlyfans, check_direct_links, check_interactive_page,
        check_redirect_chains, addError, initResults]

/-- C5. `_follow_redirects` terminates within the hop bound for every HEAD
oracle (including cyclic chains): the chain makes at most `m` hops beyond
the origin, starts with the origin URL, and ends with the returned
terminal URL; the terminal URL is always returned, never an error. -/
theorem follow_redirects_bounded_total (head : Nat → S → Except S (Nat × Option S))
    (url : S) (m : Nat) :
    (follow_redirects head url m).2.length ≤ m + 1 ∧
    (follow_redirects head url m).2.head? = some url ∧
    (follow_redirects head url m).2.getLast? = some (follow_redirects head url m).1 := by
  have h := followAux_spec head m 0 url [url] rfl
  unfold follow_redirects
  refine ⟨?_, ?_, h.2.2⟩
  · have h1 := h.1
    simp only [List.length_singleton] at h1
    omega
  · rw [h.2.1]
    rfl

/-- C6 (counterexample). A relative `Location` that does not begin with a
slash is followed verbatim, not resolved against the current URL: from
`http://example.com/a/b`, a 302 whose Location is `next.html` makes the
next chain entry the literal `next.html` — which does not even begin with
`http`, whereas any resolution against an absolute http URL would. -/
theorem follow_relative_location_unresolved :
    ((follow_redirects c6Head (str "http://example.com/a/b") 5).2)[1]?
        = some (str "next.html") ∧
    List.isPrefixOf (str "http") (str "next.html") = false := by
  decide

/-- C6 (amended). A redirection response whose `Location` begins with `/`
has that value resolved against the current URL before being appended to
the chain and followed; every other Location value (absolute URLs, and
also relative ones without a leading slash) is followed verbatim. -/
theorem follow_location_slash_resolved (head : Nat → S → Except S (Nat × Option S))
    (url loc : S) (st m : Nat)
    (hresp : head 0 url = Except.ok (st, some loc))
    (hst : isRedirectStatus st = true)
    (hslash : List.isPrefixOf (str "/") loc = true) :
    ((follow_redirects head url (m + 1)).2)[1]? = some (urljoin url loc) := by
  have hne : loc.isEmpty = false := by
    cases loc
    · simp [str, List.isPrefixOf] at hslash
    · rfl
  have hres : resolveLocation url loc = urljoin url loc := by
    unfold resolveLocation
    rw [if_pos hslash]
  unfold follow_redirects
  unfold followAux
  rw [hresp]
  dsimp only
  rw [if_pos hst]
  rw [hne]
  simp only [Bool.false_eq_true, if_false]
  obtain ⟨t, ht⟩ := followAux_chain_extends head m 1 (resolveLocation url loc)
    ([url] ++ [resolveLocation url loc])
  rw [ht, hres]
  simp

/-- C6 (witness for the amended theorem): one 301 hop with Location
`/next` from `http://example.com/a` lands on `http://example.com/next`. -/
theorem follow_location_slash_resolved_witness :
    ((follow_redirects c6WitHead (str "http://example.com/a") 5).2)[1]?
      = some (str "http://example.com/next") := by
  have h := follow_location_slash_resolved c6WitHead (str "http://example.com/a")
    (str "/next") 301 4 rfl (by decide) (by decide)
  rw [h]
  decide

/-- C7 (counterexample). The dispatch table has no generic fallback: for
`https://example.com/page`, whose domain matches none of the table's
entries, no click strategy is dispatched at all (`click_dispatch` returns
`none`), refuting the claim that the generic strategy runs for every
unmatched domain. -/
theorem click_dispatch_no_generic_fallback :
    containsSub (str "link.me") (lowerS (netlocOf (str "https://example.com/page"))) = false ∧
    containsSub (str "linktr.ee") (lowerS (netlocOf (str "https://example.com/page"))) = false ∧
    containsSub (str "beacons.ai") (lowerS (netlocOf (str "https://example.com/page"))) = false ∧
    containsSub (str "getmysocial.com") (lowerS (netlocOf (str "https://example.com/page"))) = false ∧
    click_dispatch (str "https://example.com/page") = none := by
  decide

/-- C7 (amended). The generic handler runs only for domains containing
`beacons.ai` or `getmysocial.com`; when the bio link's domain matches none
of the four table substrings, no click strategy runs:
`_try_interactive_clicks` returns not-found with the record untouched. -/
theorem click_dispatch_unmatched_none (base : S)
    (h1 : containsSub (str "link.me") (lowerS (netlocOf base)) = false)
    (h2 : containsSub (str "linktr.ee") (lowerS (netlocOf base)) = false)
    (h3 : containsSub (str "beacons.ai") (lowerS (netlocOf base)) = false)
    (h4 : containsSub (str "getmysocial.com") (lowerS (netlocOf base)) = false) :
    click_dispatch base = none ∧
    ∀ (cw : ClickWorld) (r : Results), try_interactive_clicks cw base r = (false, r) := by
  have hd : click_dispatch base = none := by
    unfold click_dispatch
    simp [h1, h2, h3, h4]
  refine ⟨hd, fun cw r => ?_⟩
  unfold try_interactive_clicks
  rw [hd]

/-- C7 (witness for the amended theorem) at `https://example.org/u`. -/
theorem click_dispatch_unmatched_none_witness :
    click_dispatch (str "https://example.org/u") = none ∧
    try_interactive_clicks quietClick (str "https://example.org/u") initResults
      = (false, initResults) := by
  have h := click_dispatch_unmatched_none (str "https://example.org/u")
    (by decide) (by decide) (by decide) (by decide)
  exact ⟨h.1, h.2 quietClick initResults⟩

/-- C8 (counterexample). The direct HTML scan stores the regex matches
without deduplication: a page containing the same profile URL twice makes
the scan succeed with `onlyfans_urls` holding that URL twice, refuting the
claim that a single strategy's contribution is duplicate-free. -/
theorem direct_scan_duplicate_urls :
    (check_direct_links
        (Except.ok (200, str "https://onlyfans.com/a https://onlyfans.com/a"))
        initResults).1 = true ∧
    (check_direct_links
        (Except.ok (200, str "https://onlyfans.com/a https://onlyfans.com/a"))
        initResults).2.onlyfans_urls
      = [str "https://onlyfans.com/a", str "https://onlyfans.com/a"] ∧
    ¬ ((check_direct_links
        (Except.ok (200, str "https://onlyfans.com/a https://onlyfans.com/a"))
        initResults).2.onlyfans_urls).Nodup := by
  decide

/-- C8 (amended). The single-URL strategies contribute singletons and the
interactive link extraction's contribution — the extractor output filtered
by the signature/exclusion test, exactly what `_check_interactive_page`
stores — is duplicate-free because `_extract_all_links` deduplicates; the
direct HTML scan (and likewise the passive redirect capture) has no such
deduplication and may repeat a URL. -/
theorem interactive_extraction_nodup (w : ExtractWorld) (base : S) (r : Results) :
    ((extract_all_links w base r).1.filter ofLinkKeep).Nodup :=
  (extract_all_links_nodup w base r).filter _

/-- C9 (counterexample). A relative anchor href that does not begin with a
slash is silently dropped by the anchor pass: with a single in-bound
anchor whose href is `about.html`, the extractor returns the empty set, so
the href was neither resolved against the base nor included. -/
theorem anchor_relative_href_dropped :
    (extract_all_links c9World (str "https://linktr.ee/u") initResults).1 = [] ∧
    List.isPrefixOf (str "/") (str "about.html") = false ∧
    List.isPrefixOf (str "http") (str "about.html") = false := by
  decide

/-- C9 (amended). Every in-bound anchor href beginning with `/` is
resolved against `base_url` and included in the extractor's result; hrefs
in other relative forms (no leading slash) are dropped. -/
theorem anchor_slash_href_included (w : ExtractWorld) (base : S) (r : Results)
    (hrefs : List (Except S (Option S))) (h : S)
    (hw : w.anchors = Except.ok hrefs)
    (hmem : Except.ok (some h) ∈ hrefs.take 100)
    (hslash : List.isPrefixOf (str "/") h = true) :
    urljoin base h ∈ (extract_all_links w base r).1 :=
  mem_extract_of_mem_anchor w base r (urljoin base h) hrefs hw
    (mem_anchorPass_of_slash base h hslash _ hmem)

/-- C9 (witness for the amended theorem): the anchor `/of` is resolved
against the Linktree base and included. -/
theorem anchor_slash_href_included_witness :
    c9WitWorld.anchors = Except.ok [Except.ok (some (str "/of"))] ∧
    urljoin (str "https://linktr.ee/u") (str "/of")
      ∈ (extract_all_links c9WitWorld (str "https://linktr.ee/u") initResults).1 :=
  ⟨rfl, anchor_slash_href_included c9WitWorld (str "https://linktr.ee/u") initResults
    [Except.ok (some (str "/of"))] (str "/of") rfl (List.mem_cons_self _ _) (by decide)⟩

/-- C10. When the direct HTML scan succeeds, every URL it stores is its
own lowercasing (entirely lower-case), because the fetched text is
lower-cased before the URL regex runs; reported URLs may therefore differ
in case from the page markup. -/
theorem direct_scan_urls_lowercase (st : Nat) (text : S) (r : Results) (u : S)
    (hok : (check_direct_links (Except.ok (st, text)) r).1 = true)
    (hu : u ∈ (check_direct_links (Except.ok (st, text)) r).2.onlyfans_urls) :
    lowerS u = u := by
  unfold check_direct_links at hok hu
  dsimp only at hok hu
  by_cases h1 : (st == 200) = true
  · rw [if_pos h1] at hok hu
    by_cases h2 : ofFindall (lowerS text) = []
    · rw [if_pos h2] at hok
      exact absurd hok (by simp)
    · rw [if_neg h2] at hok hu
      by_cases h3 : (ofFindall (lowerS text)).filter keepDirectUrl = []
      · rw [if_pos h3] at hok
        exact absurd hok (by simp)
      · rw [if_neg h3] at hu
        simp only [setSuccess] at hu
        have hmem : u ∈ ofFindall (lowerS text) := List.mem_of_mem_filter hu
        refine lowerS_eq_self_of_mem text u ?_
        intro c hc
        unfold ofFindall at hmem
        exact mem_of_mem_ofFindAux _ _ _ hmem c hc
  · rw [if_neg h1] at hok
    exact absurd hok (by simp)

/-- C10 (witness): an all-uppercase page URL is reported lower-cased. -/
theorem direct_scan_urls_lowercase_witness :
    (check_direct_links (Except.ok (200, str "HTTPS://ONLYFANS.COM/ABC")) initResults).1 = true ∧
    str "https://onlyfans.com/abc"
      ∈ (check_direct_links (Except.ok (200, str "HTTPS://ONLYFANS.COM/ABC")) initResults).2.onlyfans_urls ∧
    lowerS (str "https://onlyfans.com/abc") = str "https://onlyfans.com/abc" :=
  ⟨by decide, by decide,
    direct_scan_urls_lowercase 200 (str "HTTPS://ONLYFANS.COM/ABC") initResults
      (str "https://onlyfans.com/abc") (by decide) (by decide)⟩
